import Mathlib

/-! Verification of the crawl-and-reconcile engine of `store_data_extractor`.

A shallow embedding of the relevant parts of `data_extractor.py`,
`store_database.py`, `store_manager.py` and `user_agent_manager.py`:
pure functions become Lean functions, the SQLite-backed store becomes an
explicit `StoreState` threaded through the operations, fallible Python
code returns `Except`, and the asynchronous pagination walk of
`main_program` becomes a fold over the sequence of per-page outcomes.
Amounts of money are rationals (Python floats only ever hold integer or
integer-over-100 values here); timestamps are naturals. -/

namespace StoreExtractor

/-! ## Python string helpers -/

/-- Python's `str.strip()` at the character-list level: drop whitespace from
both ends. -/
def pyStrip (cs : List Char) : List Char :=
  ((cs.dropWhile Char.isWhitespace).reverse.dropWhile Char.isWhitespace).reverse

/-- `str.strip()` on a `String`. -/
def pyStripStr (s : String) : String :=
  String.mk (pyStrip s.toList)

/-- Decimal value of a list of ASCII digits. -/
def digitsVal (cs : List Char) : Nat :=
  cs.foldl (fun acc c => 10 * acc + (c.toNat - 48)) 0

/-- Python's `float` applied to the digit-only string left after stripping
punctuation: `none` models `float("")` raising `ValueError` (caught by the
caller); on a non-empty digit string the value is its decimal reading. -/
def floatOfDigits (cs : List Char) : Option ℚ :=
  if cs.isEmpty then none else some ((digitsVal cs : ℕ) : ℚ)

/-! ## Price parsing (`data_extractor.parse_prices`) -/

/-- The character class of the pattern `[\d,]+`. -/
def isJpyChar (c : Char) : Bool := c.isDigit || c == ','

/-- The character class of the pattern `[\d.,]+`. -/
def isEurChar (c : Char) : Bool := c.isDigit || c == ',' || c == '.'

/-- `re.search` for a character-class-plus pattern: the first maximal run of
characters satisfying `p`, or `none` when no character satisfies `p`. -/
def findFirstRun (p : Char → Bool) : List Char → Option (List Char)
  | [] => none
  | c :: rest => if p c then some (c :: rest.takeWhile p) else findFirstRun p rest

/-- The first run as the spec words it: drop everything before the first
character of the class, then take the maximal run from there. Stated
independently of `findFirstRun` so that the engine's scan can be compared
against it. -/
def specFirstRun (p : Char → Bool) (cs : List Char) : Option (List Char) :=
  let rest := cs.dropWhile (fun c => !p c)
  if rest.isEmpty then none else some (rest.takeWhile p)

/-- Embeds `parse_prices(price_text, price_config)`. The configured currency
selects the rule: JPY takes the first `[\d,]+` run, strips commas and reads
the digits; EUR takes the first `[\d.,]+` run, strips commas and periods,
reads the digits as cents and divides by 100. Every fault (in particular
`float("")` on an all-punctuation run) is caught and yields the empty dict,
modelled as an association list. -/
def parse_prices (price_text : String) (currency : String) : List (String × ℚ) :=
  let cs := pyStrip price_text.toList
  if currency = "JPY" then
    match findFirstRun isJpyChar cs with
    | none => []
    | some run =>
      match floatOfDigits (run.filter (fun c => c != ',')) with
      | none => []
      | some v => [("JPY", v)]
  else if currency = "EUR" then
    match findFirstRun isEurChar cs with
    | none => []
    | some run =>
      match floatOfDigits (run.filter (fun c => c != ',' && c != '.')) with
      | none => []
      | some v => [("EUR", v / 100)]
  else []

/-! ## Persisted store state (`store_database.py`)

One `StoreState` holds the rows of one store: its `initial_fetch` timestamp
(`NULL` until the first sync sets it) and its `Product` rows in insertion
(rowid) order. -/

/-- One row of the `Product` table (the `store_id` column is implicit: a
`StoreState` holds the rows of a single store). -/
structure DBProduct where
  name : String
  product_url : String
  image_url : String
  price_jpy : Option ℚ
  price_eur : Option ℚ
  archived : Bool
  first_seen : Nat
  last_seen : Nat
  deriving DecidableEq, Repr

/-- The persisted state of one store: the `Store.initial_fetch` column and
the store's product rows. -/
structure StoreState where
  initial_fetch : Option Nat
  products : List DBProduct
  deriving DecidableEq, Repr

/-- A transient extracted product record (`ProductDataType`): what
`extract_items_by_config` emits and `sync_store_products` consumes. The
`prices` dict is carried as its two possible entries. -/
structure Item where
  name : String
  product_url : String
  image_url : String
  price_jpy : Option ℚ
  price_eur : Option ℚ
  archived : Bool
  deriving DecidableEq, Repr

/-- Update the first row matched by `hit` (the `SELECT ... fetchone` row, in
rowid order) with `f`; `none` when no row matches. -/
def updateFirstRow (hit : DBProduct → Bool) (f : DBProduct → DBProduct) :
    List DBProduct → Option (List DBProduct)
  | [] => none
  | p :: rest =>
    if hit p then some (f p :: rest)
    else (updateFirstRow hit f rest).map (p :: ·)

/-- Embeds `StoreDatabase.add_or_update_product`: look the product up by
`product_url OR name` within the store; when a row matches, update its
prices, image, `last_seen` and `archived` in place and report `"updated"`;
otherwise insert a fresh row with `first_seen = last_seen = now` and report
`"new"`. -/
def add_or_update_product (s : StoreState) (name product_url image_url : String)
    (price_jpy price_eur : Option ℚ) (archived : Bool) (now : Nat) :
    String × StoreState :=
  match updateFirstRow
      (fun p => p.product_url == product_url || p.name == name)
      (fun p => { p with price_jpy := price_jpy, price_eur := price_eur,
                         image_url := image_url, last_seen := now,
                         archived := archived })
      s.products with
  | some ps => ("updated", { s with products := ps })
  | none =>
    ("new", { s with products := s.products ++
      [⟨name, product_url, image_url, price_jpy, price_eur, archived, now, now⟩] })

/-- The per-item loop of `sync_store_products`: `initialFetch` is the flag
computed once at the head of the call (whether `initial_fetch` was `NULL`
when the call started). An item whose stripped name or URL is empty is
skipped; a `"new"` upsert is reported only when `initialFetch` is false. -/
def syncLoop (initialFetch : Bool) (now : Nat) :
    StoreState → List Item → StoreState × List Item
  | s, [] => (s, [])
  | s, item :: rest =>
    let name := pyStripStr item.name
    let url := pyStripStr item.product_url
    if name == "" || url == "" then syncLoop initialFetch now s rest
    else
      let image := pyStripStr item.image_url
      let r := add_or_update_product s name url image
        item.price_jpy item.price_eur item.archived now
      let tail := syncLoop initialFetch now r.2 rest
      if r.1 == "new" && !initialFetch then
        (tail.1, { item with name := name, product_url := url, image_url := image } :: tail.2)
      else (tail.1, tail.2)

/-- Embeds `StoreDatabase.sync_store_products`: when the store's
`initial_fetch` is `NULL` it is set to `now` (and the whole batch is
reported silently); every item is upserted; the returned list is the items
whose upsert inserted a row, reported only when `initial_fetch` was already
set when this call began. -/
def sync_store_products (s : StoreState) (items : List Item) (now : Nat) :
    StoreState × List Item :=
  let initialFetch := s.initial_fetch.isNone
  let s1 := if initialFetch then { s with initial_fetch := some now } else s
  syncLoop initialFetch now s1 items

/-! ## Reconciliation (`data_extractor.compare_with_database`,
`store_database.mark_products_as_archived`) -/

/-- The set `db_urls`: every persisted, non-archived product URL of the
store (`{p["product_url"] for p in db_products if not p.get("archived")}`). -/
def live_urls (ps : List DBProduct) : Finset String :=
  ((ps.filter (fun p => !p.archived)).map (fun p => p.product_url)).toFinset

/-- Embeds `compare_with_database`: the `get_products` outcome is passed in
(`Except.error` models a persistence fault raised during the comparison —
caught, logging and returning the empty set); on success the result is the
set difference `db_urls - current_urls`. -/
def compare_with_database (db_products : Except Unit (List DBProduct))
    (current_urls : Finset String) : Finset String :=
  match db_products with
  | .error _ => ∅
  | .ok ps => live_urls ps \ current_urls

/-- Embeds `StoreDatabase.mark_products_as_archived`: an empty URL list is a
no-op; otherwise every row of the store whose URL is in the list gets
`archived = 1` and a bumped `last_seen`. (The Python function receives the
URLs as a list; only membership matters, so the embedding takes the set.) -/
def mark_products_as_archived (s : StoreState) (urls : Finset String) (now : Nat) :
    StoreState :=
  if urls = ∅ then s
  else { s with products := s.products.map (fun p =>
    if p.product_url ∈ urls then { p with archived := true, last_seen := now } else p) }

/-! ## The pagination walk (`data_extractor.main_program`)

Each iteration of the `while current_url:` loop is summarised by one
`PageStep`: what the fetch/extract/advance cycle did on that page. The walk
is the fold of these steps; `main_program` wraps it in the archival phase
and the `try/except/finally` of the source. -/

/-- The outcome of one iteration of the page loop.
* `page items hasNext` — content fetched, a `<body>` found, `items`
  extracted; `hasNext` is whether a next-page link was found.
* `revisit` — the current URL was already visited (cycle guard): `break`
  with `success` still true.
* `fetchFail` — no content after the retries: `success = False`, `break`.
* `noBody` — no `<body>` element: `success = False`, `break`.
* `exn` — some other exception while processing the page, caught by the
  loop's `except Exception`: `success = False`, `break`.
* `cancelled` — an `asyncio.CancelledError` delivered at one of the loop's
  suspension points: `success = False`, then re-`raise`d out of the loop. -/
inductive PageStep where
  | page (items : List Item) (hasNext : Bool)
  | revisit
  | fetchFail
  | noBody
  | exn
  | cancelled
  deriving DecidableEq, Repr

/-- What the page loop left behind: the store state after the per-page
syncs, the accumulated `all_new_products` and `all_product_urls`, the
`success` flag, and whether a `CancelledError` is unwinding. -/
structure WalkResult where
  state : StoreState
  newProducts : List Item
  urls : Finset String
  success : Bool
  cancelledInFlight : Bool
  deriving DecidableEq

/-- `{item["product_url"] for item in page_items}` (the raw, unstripped
URLs, exactly as `main_program` collects them). -/
def itemUrls (items : List Item) : Finset String :=
  (items.map (fun i => i.product_url)).toFinset

/-- The `while current_url:` loop of `main_program`, folded over the page
steps. A non-empty page batch is synced immediately (`process_batch` — an
empty batch never reaches the database) and its URLs are collected; the
loop ends at a terminal step or when the pagination ends (`hasNext = false`,
or the step list is exhausted, both modelling `DONE`). -/
def walkLoop (now : Nat) :
    StoreState → List Item → Finset String → List PageStep → WalkResult
  | s, acc, urls, [] => ⟨s, acc, urls, true, false⟩
  | s, acc, urls, step :: rest =>
    match step with
    | .revisit => ⟨s, acc, urls, true, false⟩
    | .fetchFail => ⟨s, acc, urls, false, false⟩
    | .noBody => ⟨s, acc, urls, false, false⟩
    | .exn => ⟨s, acc, urls, false, false⟩
    | .cancelled => ⟨s, acc, urls, false, true⟩
    | .page items hasNext =>
      if items.isEmpty then
        if hasNext then walkLoop now s acc urls rest else ⟨s, acc, urls, true, false⟩
      else
        let r := sync_store_products s items now
        if hasNext then walkLoop now r.1 (acc ++ r.2) (urls ∪ itemUrls items) rest
        else ⟨r.1, acc ++ r.2, urls ∪ itemUrls items, true, false⟩

/-- What `main_program` left behind: the final store state, the returned
`all_new_products`, whether the archival comparison ran and what it
archived, and whether an exception reached the caller. -/
structure MainResult where
  state : StoreState
  returned : List Item
  archivalRan : Bool
  archivedSet : Finset String
  raisedToCaller : Bool
  deriving DecidableEq

/-- Embeds `main_program` for one store. Phase 2 (compare + mark archived)
runs only when no exception is unwinding, `success` is true and at least
one product URL was observed. The function's `finally:` block executes
`return all_new_products`; by Python's rules a `return` in a `finally`
clause discards any in-flight exception — `asyncio.CancelledError`
included, despite the loop's own `except asyncio.CancelledError: ...
raise` — so the embedded function never propagates anything:
`raisedToCaller` is `false` on every path. -/
def main_program (s : StoreState) (steps : List PageStep) (now : Nat) : MainResult :=
  let w := walkLoop now s [] ∅ steps
  if w.cancelledInFlight = false ∧ w.success = true ∧ w.urls ≠ ∅ then
    let ta := compare_with_database (Except.ok w.state.products) w.urls
    ⟨mark_products_as_archived w.state ta now, w.newProducts, true, ta, false⟩
  else ⟨w.state, w.newProducts, false, ∅, false⟩

/-! ## Scheduling (`store_manager.py`) -/

/-- One field of a schedule: an explicit list of integers, or the wildcard
string `"*"`. -/
inductive SchedField where
  | wildcard
  | explicitList (vals : List Int)
  deriving DecidableEq, Repr

/-- The five-field schedule of a store's configuration. -/
structure Schedule where
  minutes : SchedField
  hours : SchedField
  days : SchedField
  months : SchedField
  years : SchedField
  deriving DecidableEq, Repr

/-- A wall-clock tick (`datetime.now()` components). -/
structure Tick where
  minute : Fin 60
  hour : Fin 24
  day : Nat
  month : Nat
  year : Nat
  deriving DecidableEq, Repr

/-- `map(str, field)`. Over a list this is the decimal strings of its
entries; over the wildcard, Python iterates the string `"*"` character by
character, yielding `["*"]`. -/
def fieldStrings : SchedField → List String
  | .wildcard => ["*"]
  | .explicitList vals => vals.map toString

/-- One clause `field != "*" and str(component) not in map(str, field)` of
`should_run_now`: whether this field rules the tick out. -/
def fieldBlocks (field : SchedField) (component : Nat) : Bool :=
  match field with
  | .wildcard => false
  | .explicitList vals => decide (toString (component : Int) ∉ vals.map toString)

/-- Embeds `StoreManager.should_run_now`. The minutes clause has no
wildcard exemption: `str(now.minute) not in map(str, minutes)` is tested
unconditionally, so a wildcard minutes field compares `str(minute)` against
`["*"]`. -/
def should_run_now (schedule : Schedule) (t : Tick) : Bool :=
  if toString ((t.minute : Nat) : Int) ∉ fieldStrings schedule.minutes then false
  else if fieldBlocks schedule.hours t.hour then false
  else if fieldBlocks schedule.days t.day then false
  else if fieldBlocks schedule.months t.month then false
  else if fieldBlocks schedule.years t.year then false
  else true

/-- A store's configuration, as far as scheduling is concerned. -/
structure StoreCfg where
  name : String
  schedule : Schedule
  deriving DecidableEq, Repr

/-- Embeds the configuration load at the top of `store_manager.py`:
`store_config = json.load(f)`. The parsed JSON is taken as-is — no schema
validation of any schedule field happens at load time. -/
def loadStoreConfig (parsed : List StoreCfg) : Except String (List StoreCfg) :=
  Except.ok parsed

/-! ## Identity rotation (`user_agent_manager.py`) -/

/-- Embeds `UserAgentManager._load_user_agents`: the file is given as its
list of lines (`for agent in f`); `none` models a missing file
(`FileNotFoundError`, re-raised as a `RuntimeError`); a present file yields
its stripped non-blank lines — a file with no such line yields the empty
list without any error. -/
def load_user_agents (fileLines : Option (List String)) : Except String (List String) :=
  match fileLines with
  | none => .error "RuntimeError: User agent file not found"
  | some lines => .ok ((lines.map pyStripStr).filter (fun line => line != ""))

/-- Python's `int(text)`: optional sign, then decimal digits, surrounded by
optional whitespace; `none` models `ValueError`. -/
def pyParseInt (text : String) : Option Int :=
  match pyStrip text.toList with
  | [] => none
  | '-' :: rest =>
    if !rest.isEmpty && rest.all Char.isDigit then some (-(digitsVal rest : Int)) else none
  | '+' :: rest =>
    if !rest.isEmpty && rest.all Char.isDigit then some ((digitsVal rest : Nat) : Int) else none
  | cs =>
    if cs.all Char.isDigit then some ((digitsVal cs : Nat) : Int) else none

/-- The mutable state of a `UserAgentManager`. -/
structure UAState where
  user_agent_list : List String
  current_index : Option Int
  highest_used_index : Option Int
  dirty : Bool
  deriving DecidableEq, Repr

/-- Embeds `UserAgentManager.__init__` together with `_initialize_index`:
the agent list is loaded (a missing file is the only fatal case); the
persisted index is read, incremented, and reset to 0 when the file is
missing, unparsable, or the incremented value exceeds the list length. -/
def initUserAgentManager (agentFileLines : Option (List String)) (indexFile : Option String) :
    Except String UAState :=
  match load_user_agents agentFileLines with
  | .error e => .error e
  | .ok agents =>
    let idx : Int :=
      match indexFile with
      | none => 0
      | some text =>
        match pyParseInt text with
        | none => 0
        | some n =>
          let loaded := n + 1
          if loaded > (agents.length : Int) then 0 else loaded
    .ok ⟨agents, some idx, some idx, false⟩

/-- The Python faults `next_user_agent` can raise. -/
inductive PyError where
  | zeroDivision
  deriving DecidableEq, Repr

/-- Embeds `UserAgentManager.next_user_agent`:
`self.user_agent_list[self.current_index % len(self.user_agent_list)]`
raises `ZeroDivisionError` when the list is empty; otherwise Python's `%`
with a positive divisor is the Euclidean remainder, so the index is in
range (the `getD` default is unreachable), the high-water mark is raised
if passed, and the index advances. -/
def next_user_agent (st : UAState) : Except PyError (String × UAState) :=
  let ci := st.current_index.getD 0
  if st.user_agent_list.length = 0 then .error .zeroDivision
  else
    let agent := st.user_agent_list.getD (ci.emod (st.user_agent_list.length : Int)).toNat ""
    let hi : Option Int :=
      match st.highest_used_index with
      | none => some ci
      | some h => if ci > h then some ci else some h
    .ok (agent, ⟨st.user_agent_list, some (ci + 1), hi, true⟩)

/-! ## Concrete fixtures used by the counterexamples and witnesses -/

/-- A product item `a` at URL `urlA`. -/
def itemA : Item := ⟨"a", "urlA", "", none, none, false⟩

/-- A product item `b` at URL `urlB`. -/
def itemB : Item := ⟨"b", "urlB", "", none, none, false⟩

/-- A brand-new store: `initial_fetch` is `NULL`, no rows. -/
def coldState : StoreState := ⟨none, []⟩

/-- An item observed as sold out (`archived = True` at observation time). -/
def soldItem : Item := ⟨"x", "U", "", none, none, true⟩

/-- A store that already completed a first crawl and persists one live
(non-archived) row for `soldItem`'s URL. -/
def liveState : StoreState := ⟨some 0, [⟨"x", "U", "", none, none, false, 0, 0⟩]⟩

/-- Whether a step is a successfully processed page with a next-page link
(the loop continues past it). -/
def stepOkNext : PageStep → Bool
  | .page _ hasNext => hasNext
  | _ => false

/-- Whether a step is a page-level failure (`fetchFail`, `noBody` or a
caught exception): the loop breaks with `success = False`. -/
def stepFails : PageStep → Bool
  | .fetchFail => true
  | .noBody => true
  | .exn => true
  | _ => false

/-- A configuration whose store has a wildcard minutes field. -/
def wildcardCfg : StoreCfg :=
  ⟨"storeW", ⟨SchedField.wildcard, SchedField.explicitList [12], SchedField.wildcard,
    SchedField.wildcard, SchedField.wildcard⟩⟩

/-! ## Helper lemmas -/

/-- Membership in `live_urls`: the persisted non-archived URLs. -/
theorem mem_live_urls {ps : List DBProduct} {u : String} :
    u ∈ live_urls ps ↔ ∃ p ∈ ps, p.archived = false ∧ p.product_url = u := by
  simp only [live_urls, List.mem_toFinset, List.mem_map, List.mem_filter,
    Bool.not_eq_true']
  tauto

/-- The engine's left-to-right scan finds exactly the spec's "first run". -/
theorem findFirstRun_eq_spec (p : Char → Bool) :
    ∀ cs, findFirstRun p cs = specFirstRun p cs := by
  intro cs
  induction cs with
  | nil => rfl
  | cons c rest ih =>
    by_cases h : p c
    · simp [findFirstRun, specFirstRun, h, List.dropWhile_cons, List.takeWhile_cons]
    · simp only [findFirstRun, h, Bool.false_eq_true, if_false, ih, specFirstRun,
        List.dropWhile_cons, Bool.not_false, if_true]

/-- Every character of a found run satisfies the class and comes from the
scanned text. -/
theorem findFirstRun_sound {p : Char → Bool} :
    ∀ {cs run : List Char}, findFirstRun p cs = some run →
      ∀ c ∈ run, p c = true ∧ c ∈ cs := by
  intro cs
  induction cs with
  | nil => intro run h; simp [findFirstRun] at h
  | cons c0 rest ih =>
    intro run h d hd
    by_cases h0 : p c0
    · rw [findFirstRun, if_pos h0] at h
      obtain rfl : c0 :: rest.takeWhile p = run := Option.some.inj h
      rcases List.mem_cons.1 hd with rfl | hd'
      · exact ⟨h0, List.mem_cons_self _ _⟩
      · exact ⟨List.mem_takeWhile_imp hd',
          List.mem_cons_of_mem _ ((List.takeWhile_sublist _).subset hd')⟩
    · rw [findFirstRun, if_neg h0] at h
      obtain ⟨hp, hmem⟩ := ih h d hd
      exact ⟨hp, List.mem_cons_of_mem _ hmem⟩

/-- Stripping only removes characters. -/
theorem pyStrip_subset (cs : List Char) : ∀ c ∈ pyStrip cs, c ∈ cs := by
  intro c hc
  rw [pyStrip, List.mem_reverse] at hc
  have h1 : c ∈ (cs.dropWhile Char.isWhitespace).reverse :=
    (List.dropWhile_sublist _).subset hc
  rw [List.mem_reverse] at h1
  exact (List.dropWhile_sublist _).subset h1

/-- A sync call whose `initial_fetch` flag is set (first fetch) reports no
products, whatever happens to the rows. -/
theorem syncLoop_true_reports_nothing (now : Nat) :
    ∀ (s : StoreState) (items : List Item), (syncLoop true now s items).2 = [] := by
  intro s items
  induction items generalizing s with
  | nil => rfl
  | cons item rest ih =>
    simp only [syncLoop, Bool.not_true, Bool.and_false, Bool.false_eq_true, if_false]
    split
    · exact ih _
    · exact ih _

/-- Walking a prefix of successfully processed pages into a failing step
yields the prefix's accumulations with `success = False` and nothing
raised. -/
theorem walkLoop_prefix_fail (now : Nat) (failStep : PageStep) (rest : List PageStep)
    (hf : stepFails failStep = true) :
    ∀ (pre : List PageStep), (∀ st ∈ pre, stepOkNext st = true) →
    ∀ (s : StoreState) (acc : List Item) (urls : Finset String),
      walkLoop now s acc urls (pre ++ failStep :: rest) =
        ⟨(walkLoop now s acc urls pre).state,
         (walkLoop now s acc urls pre).newProducts,
         (walkLoop now s acc urls pre).urls, false, false⟩ := by
  intro pre
  induction pre with
  | nil =>
    intro _ s acc urls
    cases failStep <;> simp_all [walkLoop, stepFails]
  | cons st pre ih =>
    intro hok s acc urls
    have hst : stepOkNext st = true := hok st (List.mem_cons_self _ _)
    have hok' : ∀ x ∈ pre, stepOkNext x = true :=
      fun x hx => hok x (List.mem_cons_of_mem _ hx)
    cases st with
    | page items hasNext =>
      cases hasNext with
      | false => simp [stepOkNext] at hst
      | true =>
        by_cases he : items.isEmpty
        · simp only [List.cons_append, walkLoop, he, if_pos, if_true]
          exact ih hok' s acc urls
        · simp only [List.cons_append, walkLoop, he, Bool.false_eq_true, if_false, if_true]
          exact ih hok' _ _ _
    | revisit => simp [stepOkNext] at hst
    | fetchFail => simp [stepOkNext] at hst
    | noBody => simp [stepOkNext] at hst
    | exn => simp [stepOkNext] at hst
    | cancelled => simp [stepOkNext] at hst

/-- No minute value prints as the wildcard string. -/
theorem minute_str_ne_star : ∀ m : Fin 60, toString ((m : Nat) : Int) ≠ "*" := by decide

/-! ## The claims -/

/-- C3: reconciliation is pure set difference — the archive set equals the
persisted non-archived URLs of the store minus the observed set, and for
persisted live URLs `{A, B, C}` with observed `{A, C}` it is exactly
`{B}`. -/
theorem compare_is_set_difference :
    (∀ (ps : List DBProduct) (current : Finset String) (u : String),
        u ∈ compare_with_database (Except.ok ps) current ↔
          (∃ p ∈ ps, p.archived = false ∧ p.product_url = u) ∧ u ∉ current) ∧
    compare_with_database
        (Except.ok [⟨"a", "A", "", none, none, false, 0, 0⟩,
          ⟨"b", "B", "", none, none, false, 0, 0⟩,
          ⟨"c", "C", "", none, none, false, 0, 0⟩]) {"A", "C"} = {"B"} := by
  refine ⟨fun ps current u => ?_, by decide⟩
  simp only [compare_with_database, Finset.mem_sdiff, mem_live_urls]

/-- C5: reconcile-then-apply is idempotent — after computing the archive
set and marking it archived, reconciling the same observed URL set against
the resulting state yields the empty archive set. -/
theorem reconcile_twice_empty (s : StoreState) (current : Finset String) (now : Nat) :
    compare_with_database
      (Except.ok (mark_products_as_archived s
        (compare_with_database (Except.ok s.products) current) now).products)
      current = ∅ := by
  apply Finset.eq_empty_iff_forall_not_mem.2
  intro u hu
  simp only [compare_with_database, Finset.mem_sdiff, mem_live_urls] at hu
  obtain ⟨⟨p, hp, harch, hurl⟩, hcur⟩ := hu
  by_cases h0 : live_urls s.products \ current = ∅
  · simp only [mark_products_as_archived, h0, if_pos] at hp
    exact absurd (h0 ▸ Finset.mem_sdiff.2 ⟨mem_live_urls.2 ⟨p, hp, harch, hurl⟩, hcur⟩)
      (Finset.not_mem_empty u)
  · simp only [mark_products_as_archived, h0, if_neg, not_false_iff] at hp
    obtain ⟨q, hq, hfq⟩ := List.mem_map.1 hp
    by_cases hin : q.product_url ∈ live_urls s.products \ current
    · rw [if_pos hin] at hfq
      rw [← hfq] at harch
      simp at harch
    · rw [if_neg hin] at hfq
      subst hfq
      exact hin (Finset.mem_sdiff.2 ⟨mem_live_urls.2 ⟨q, hq, harch, rfl⟩, hurl ▸ hcur⟩)

/-- C9: the archive set is always a subset of the store's persisted
non-archived URLs and disjoint from the observed set, and a persistence
fault during the comparison yields the empty archive set. -/
theorem compare_archive_set_sound :
    (∀ current : Finset String, compare_with_database (Except.error ()) current = ∅) ∧
    (∀ (ps : List DBProduct) (current : Finset String),
      compare_with_database (Except.ok ps) current ⊆ live_urls ps ∧
      Disjoint (compare_with_database (Except.ok ps) current) current) := by
  refine ⟨fun current => rfl, fun ps current => ⟨?_, ?_⟩⟩
  · intro u hu
    simp only [compare_with_database, Finset.mem_sdiff] at hu
    exact hu.1
  · rw [Finset.disjoint_left]
    intro u hu
    simp only [compare_with_database, Finset.mem_sdiff] at hu
    exact hu.2

/-- C1 counterexample: a store whose `initial_fetch` is null when the crawl
starts, crawled over two page batches, reports the record first inserted by
the second batch — not zero records as claimed (the first batch's sync call
already set `initial_fetch`). -/
theorem cold_start_two_batches_reports :
    coldState.initial_fetch = none ∧
    (main_program coldState [PageStep.page [itemA] true, PageStep.page [itemB] false] 0).returned
      = [itemB] := by decide

/-- C1 (amended): cold-start suppression is per sync (per page batch): a
`sync_store_products` call that finds `initial_fetch` null reports no
products at all, and a record is reported only if `initial_fetch` was
already set when that call began. -/
theorem sync_batch_suppression :
    (∀ (s : StoreState) (items : List Item) (now : Nat),
        s.initial_fetch = none → (sync_store_products s items now).2 = []) ∧
    (∀ (s : StoreState) (items : List Item) (now : Nat) (it : Item),
        it ∈ (sync_store_products s items now).2 → s.initial_fetch ≠ none) := by
  have h1 : ∀ (s : StoreState) (items : List Item) (now : Nat),
      s.initial_fetch = none → (sync_store_products s items now).2 = [] := by
    intro s items now h
    simp only [sync_store_products, h, Option.isNone_none, if_pos]
    exact syncLoop_true_reports_nothing now _ items
  refine ⟨h1, fun s items now it hmem h => ?_⟩
  rw [h1 s items now h] at hmem
  exact absurd hmem (List.not_mem_nil it)

/-- C2: a crawl cancelled at its first page records the `CancelledError` in
flight, yet `main_program` returns normally with its accumulated products —
the `return` in the `finally:` block discards the re-raised cancellation,
so the caller observes a normal return value, contradicting the spec. -/
theorem cancelled_crawl_returns_normally :
    (walkLoop 0 coldState [] ∅ [PageStep.cancelled]).cancelledInFlight = true ∧
    (main_program coldState [PageStep.cancelled] 0).raisedToCaller = false ∧
    (main_program coldState [PageStep.cancelled] 0).returned = [] := by decide

/-- C4 counterexample: a crawl whose second page fails still flips a
persisted row's `archived` flag to true through the first page's sold-out
upsert, although the archival comparison never ran — refuting "a failed
crawl never changes any archived flag". -/
theorem failed_crawl_flips_archived :
    liveState.products.map (fun p => p.archived) = [false] ∧
    (main_program liveState [PageStep.page [soldItem] true, PageStep.fetchFail] 0).archivalRan
      = false ∧
    (main_program liveState
      [PageStep.page [soldItem] true, PageStep.fetchFail] 0).state.products.map
      (fun p => p.archived) = [true] := by decide

/-- C4 (amended): when a page fails after a prefix of successfully
processed pages, the new records accumulated from that prefix are still
returned, the archival comparison does not run, nothing is marked archived
by it, and the state is exactly what the per-page syncs left. -/
theorem failed_crawl_semantics :
    ∀ (s : StoreState) (now : Nat) (pre rest : List PageStep) (failStep : PageStep),
      (∀ st ∈ pre, stepOkNext st = true) → stepFails failStep = true →
      main_program s (pre ++ failStep :: rest) now =
        ⟨(walkLoop now s [] ∅ pre).state, (walkLoop now s [] ∅ pre).newProducts,
          false, ∅, false⟩ := by
  intro s now pre rest failStep hok hf
  simp only [main_program]
  rw [walkLoop_prefix_fail now failStep rest hf pre hok s [] ∅]
  simp

/-- C4 witness: a concrete two-page crawl whose second page fails content
retrieval returns the first page's products and performs no archival. -/
theorem failed_crawl_semantics_spot :
    main_program (StoreState.mk (some 0) []) [PageStep.page [itemA] true, PageStep.fetchFail] 0 =
      ⟨(walkLoop 0 (StoreState.mk (some 0) []) [] ∅ [PageStep.page [itemA] true]).state,
       (walkLoop 0 (StoreState.mk (some 0) []) [] ∅ [PageStep.page [itemA] true]).newProducts,
       false, ∅, false⟩ :=
  failed_crawl_semantics (StoreState.mk (some 0) []) 0 [PageStep.page [itemA] true] []
    PageStep.fetchFail (by decide) (by decide)

/-- C6: the price parsing rules — JPY takes the first digits/commas run,
strips commas and reads the amount; EUR takes the first
digits/commas/periods run, strips the punctuation and divides the digits
by 100; `"¥1,234"` with JPY gives 1234 and `"12,34 €"` with EUR gives
12.34. -/
theorem parse_prices_currency_rules :
    (∀ (t : String) (v : ℚ),
        ("JPY", v) ∈ parse_prices t "JPY" ↔
          ∃ run, specFirstRun isJpyChar (pyStrip t.toList) = some run ∧
            floatOfDigits (run.filter (fun c => c != ',')) = some v) ∧
    (∀ (t : String) (v : ℚ),
        ("EUR", v) ∈ parse_prices t "EUR" ↔
          ∃ run, specFirstRun isEurChar (pyStrip t.toList) = some run ∧
            ∃ cents, floatOfDigits (run.filter (fun c => c != ',' && c != '.')) = some cents ∧
              v = cents / 100) ∧
    parse_prices "¥1,234" "JPY" = [("JPY", 1234)] ∧
    parse_prices "12,34 €" "EUR" = [("EUR", 1234 / 100)] := by
  refine ⟨fun t v => ?_, fun t v => ?_, by decide, ?_⟩
  · rw [parse_prices, if_pos rfl, findFirstRun_eq_spec]
    cases h : specFirstRun isJpyChar (pyStrip t.toList) with
    | none => simp
    | some run =>
      cases hf : floatOfDigits (run.filter (fun c => c != ',')) with
      | none => simp [hf]
      | some w => simp [hf, eq_comm]
  · rw [parse_prices]
    rw [if_neg (by decide), if_pos rfl, findFirstRun_eq_spec]
    cases h : specFirstRun isEurChar (pyStrip t.toList) with
    | none => simp
    | some run =>
      cases hf : floatOfDigits (run.filter (fun c => c != ',' && c != '.')) with
      | none => simp [hf]
      | some w => simp [hf]
  · have h1 : pyStrip "12,34 €".toList = ['1', '2', ',', '3', '4', ' ', '€'] := by decide
    have h2 : findFirstRun isEurChar ['1', '2', ',', '3', '4', ' ', '€'] =
        some ['1', '2', ',', '3', '4'] := by decide
    have h3 : List.filter (fun c => c != ',' && c != '.') ['1', '2', ',', '3', '4'] =
        ['1', '2', '3', '4'] := by decide
    have h4 : digitsVal ['1', '2', '3', '4'] = 1234 := by decide
    have hne : ("EUR" = "JPY") = False := by simp
    simp only [parse_prices, h1, hne, if_false, h2, h3, floatOfDigits, h4]
    norm_num

/-- C10: price parsing is total and never raises — the result is empty when
the configured currency is neither JPY nor EUR, or when the text holds no
digit (an all-punctuation run parses to nothing), and it never holds a key
other than the configured currency. -/
theorem parse_prices_safe :
    (∀ (t currency : String), currency ≠ "JPY" → currency ≠ "EUR" →
        parse_prices t currency = []) ∧
    (∀ (t currency : String), (∀ c ∈ t.toList, c.isDigit = false) →
        parse_prices t currency = []) ∧
    (∀ (t currency k : String) (v : ℚ), (k, v) ∈ parse_prices t currency → k = currency) := by
  refine ⟨fun t currency h1 h2 => ?_, fun t currency hd => ?_,
    fun t currency k v hmem => ?_⟩
  · rw [parse_prices, if_neg h1, if_neg h2]
  · have hsub : ∀ c ∈ pyStrip t.toList, c.isDigit = false :=
      fun c hc => hd c (pyStrip_subset _ c hc)
    by_cases hc : currency = "JPY"
    · subst hc
      rw [parse_prices, if_pos rfl]
      cases h : findFirstRun isJpyChar (pyStrip t.toList) with
      | none => rfl
      | some run =>
        have hfil : run.filter (fun c => c != ',') = [] := by
          rw [List.filter_eq_nil_iff]
          intro a ha
          obtain ⟨hp, hmem⟩ := findFirstRun_sound h a ha
          have hnd := hsub a hmem
          simp only [isJpyChar, hnd, Bool.false_or] at hp
          simp [eq_of_beq hp]
        simp [hfil, floatOfDigits]
    · by_cases hc2 : currency = "EUR"
      · subst hc2
        rw [parse_prices, if_neg (by decide), if_pos rfl]
        cases h : findFirstRun isEurChar (pyStrip t.toList) with
        | none => rfl
        | some run =>
          have hfil : run.filter (fun c => c != ',' && c != '.') = [] := by
            rw [List.filter_eq_nil_iff]
            intro a ha
            obtain ⟨hp, hmem⟩ := findFirstRun_sound h a ha
            have hnd := hsub a hmem
            simp only [isEurChar, hnd, Bool.false_or] at hp
            rcases Bool.or_eq_true_iff.1 hp with h1 | h1 <;> simp_all
          simp [hfil, floatOfDigits]
      · rw [parse_prices, if_neg hc, if_neg hc2]
  · by_cases hc : currency = "JPY"
    · subst hc
      rw [parse_prices, if_pos rfl] at hmem
      rcases h : findFirstRun isJpyChar (pyStrip t.toList) with _ | run
      · rw [h] at hmem
        simp at hmem
      · rw [h] at hmem
        rcases hf : floatOfDigits (run.filter (fun c => c != ',')) with _ | w
        · simp [hf] at hmem
        · simp [hf] at hmem
          exact hmem.1
    · by_cases hc2 : currency = "EUR"
      · subst hc2
        rw [parse_prices, if_neg (by decide), if_pos rfl] at hmem
        rcases h : findFirstRun isEurChar (pyStrip t.toList) with _ | run
        · rw [h] at hmem
          simp at hmem
        · rw [h] at hmem
          rcases hf : floatOfDigits (run.filter (fun c => c != ',' && c != '.')) with _ | w
          · simp [hf] at hmem
          · simp [hf] at hmem
            exact hmem.1
      · rw [parse_prices, if_neg hc, if_neg hc2] at hmem
        simp at hmem

/-- C7 counterexample: a configuration whose store's minutes field is the
wildcard is accepted as-is by the load — no rejection happens at load
time. -/
theorem wildcard_minutes_load_accepted :
    wildcardCfg.schedule.minutes = SchedField.wildcard ∧
    loadStoreConfig [wildcardCfg] = Except.ok [wildcardCfg] :=
  ⟨rfl, rfl⟩

/-- C7 (amended): a wildcard minutes field is not rejected when the
configuration is loaded; instead `should_run_now` compares the tick's
minute string against `["*"]` and never matches, so such a store never
fires. -/
theorem wildcard_minutes_never_runs :
    ∀ (schedule : Schedule) (t : Tick), schedule.minutes = SchedField.wildcard →
      should_run_now schedule t = false := by
  intro schedule t h
  simp [should_run_now, h, fieldStrings, minute_str_ne_star t.minute]

/-- C7 witness: the all-wildcard schedule never fires at minute 0 of hour 0
on 2025-01-01. -/
theorem wildcard_minutes_never_runs_spot :
    should_run_now
      (Schedule.mk SchedField.wildcard SchedField.wildcard SchedField.wildcard
        SchedField.wildcard SchedField.wildcard)
      (Tick.mk 0 0 1 1 2025) = false :=
  wildcard_minutes_never_runs _ _ rfl

/-- C8 counterexample: an identity file that exists but holds only a blank
line loads without error and the manager is constructed over the empty
list — startup does not fail. -/
theorem empty_agent_file_not_fatal :
    load_user_agents (some [""]) = Except.ok [] ∧
    initUserAgentManager (some [""]) none = Except.ok (UAState.mk [] (some 0) (some 0) false) :=
  ⟨rfl, rfl⟩

/-- C8 (amended): constructing the manager never fails on a present file —
its agent list is the file's stripped non-blank lines, whatever they are —
and only the first `next_user_agent` call on an empty list fails, with a
`ZeroDivisionError` from `index % 0`. -/
theorem empty_agent_list_fails_on_first_use :
    (∀ (lines : List String) (indexFile : Option String),
        ∃ st : UAState, initUserAgentManager (some lines) indexFile = Except.ok st ∧
          st.user_agent_list = (lines.map pyStripStr).filter (fun line => line != "")) ∧
    (∀ st : UAState, st.user_agent_list = [] →
        next_user_agent st = Except.error PyError.zeroDivision) := by
  constructor
  · intro lines indexFile
    exact ⟨_, rfl, rfl⟩
  · intro st h
    simp [next_user_agent, h]

end StoreExtractor

